import Mathlib

/-!
Shallow embedding of the Zapateria-app cart and catalog logic.

The source is an Express/TypeScript application.  The cart router
(`routes/cart.ts`) and the product router (`routes/products.ts`) are
embedded below as pure Lean functions:

* JavaScript numbers are modelled as rationals (`ℚ`); every numeric
  literal appearing in the source is a small integer, and the dynamic
  checks of the handlers (`typeof x === "number"`, truthiness, `<=`)
  are faithfully reproduced on this model.  `NaN` is not representable
  in the model; no claim under scrutiny involves it.
* A request-body field is an `Option JsVal` (`none` = the field is
  absent, i.e. `undefined` in JavaScript).
* The session and the persisted JSON file become explicit state
  (`St`); `JSON.parse ∘ JSON.stringify` round-trips the modelled data
  and is the identity here, and a JavaScript object keyed by strings
  is modelled as an association list in key-insertion order.
-/

namespace Zapateria

/-- Runtime JavaScript values that can arrive in a JSON request body. -/
inductive JsVal where
  | vNum (q : ℚ)
  | vStr (s : String)
  | vBool (b : Bool)
  | vNull
deriving DecidableEq

/-- Truthiness of an optional body field, as JavaScript `!x` negates it:
`undefined`, `null`, `0`, the empty string and `false` are falsy. -/
def truthyOpt : Option JsVal → Bool
  | none => false
  | some (.vNum q) => decide (¬ q = 0)
  | some (.vStr s) => decide (¬ s = "")
  | some (.vBool b) => b
  | some .vNull => false

/-- Loose equality test `x == null`: true exactly for `null` and `undefined`. -/
def isNullish : Option JsVal → Bool
  | none => true
  | some .vNull => true
  | some (.vNum _) => false
  | some (.vStr _) => false
  | some (.vBool _) => false

/-- The check `typeof x === "number"`. -/
def isNum : Option JsVal → Bool
  | some (.vNum _) => true
  | _ => false

/-- Numeric payload of a field; only used after `isNum` has been checked. -/
def numOf : Option JsVal → ℚ
  | some (.vNum q) => q
  | _ => 0

/-- A cart entry `{productId, qty}` (interface `CartItem` in the source). -/
structure CartItem where
  productId : ℚ
  qty : ℚ
deriving DecidableEq

/-- A catalog entry (interface `Product` in the source). -/
structure Product where
  id : ℚ
  name : String
  price : ℚ
  image : String
  description : String
  stock : ℚ
deriving DecidableEq

/-- The fixed in-memory catalog of `routes/products.ts`. -/
def products : List Product :=
  [ ⟨1, "Runner Azul", 199999, "/img/shoe_1.png", "Zapatilla ligera para correr, malla transpirable.", 12⟩,
    ⟨2, "Classic Rojo", 149999, "/img/shoe_2.png", "Clásico urbano para uso diario.", 24⟩,
    ⟨3, "Eco Verde", 179999, "/img/shoe_3.png", "Materiales reciclados, cómodo y resistente.", 8⟩,
    ⟨4, "Urban Naranja", 159999, "/img/shoe_4.png", "Estilo urbano con suela de alta tracción.", 16⟩,
    ⟨5, "Sport Morado", 189999, "/img/shoe_5.png", "Para entrenamientos de alto rendimiento.", 10⟩,
    ⟨6, "Trail Gris", 209999, "/img/shoe_6.png", "Ideal para montaña y terrenos irregulares.", 7⟩,
    ⟨7, "Pro Basketball Negro", 229999, "/img/shoe_7.png", "Diseño profesional con soporte de tobillo y amortiguación avanzada.", 15⟩,
    ⟨8, "Casual Blanco", 139999, "/img/shoe_8.png", "Estilo minimalista y elegante, perfecto para cualquier ocasión.", 20⟩,
    ⟨9, "Skate Amarillo", 169999, "/img/shoe_9.png", "Suela reforzada y diseño resistente.", 11⟩ ]

/-- The literal `stockMap` of the `/add` handler; a JavaScript object
lookup `stockMap[productId]` hits a key only on exact numeric match and
yields `undefined` (`none`) otherwise. -/
def stockMap : ℚ → Option ℚ := fun q =>
  if q = 1 then some 12 else if q = 2 then some 24 else if q = 3 then some 8
  else if q = 4 then some 16 else if q = 5 then some 10 else if q = 6 then some 7
  else if q = 7 then some 15 else if q = 8 then some 20 else if q = 9 then some 11
  else none

/-- The literal `prices` record of the `/total` handler together with the
`|| 0` fallback applied at its use site. -/
def priceMap : ℚ → ℚ := fun q =>
  if q = 1 then 199999 else if q = 2 then 149999 else if q = 3 then 179999
  else if q = 4 then 159999 else if q = 5 then 189999 else if q = 6 then 209999
  else if q = 7 then 229999 else if q = 8 then 139999 else if q = 9 then 169999
  else 0

/-- The distinct 400-responses the cart router can produce. -/
inductive ErrResp where
  | missingFields
  | wrongTypes
  | invalidQty
  | unknownProduct
  | insufficientStock (available : ℚ)
  | removeMissing
  | removeWrongType
deriving DecidableEq

/-- Outcome of a cart mutation request: a 400 rejection or the 200
response carrying the updated cart. -/
inductive CartResult where
  | rej (e : ErrResp)
  | ok (cart : List CartItem)
deriving DecidableEq

/-- The handler expression `existing ? existing.qty : 0` where
`existing = sess.cart.find(i => i.productId === productId)`. -/
def currentQty (cart : List CartItem) (pid : ℚ) : ℚ :=
  ((cart.find? fun i => decide (i.productId = pid)).map CartItem.qty).getD 0

/-- The update step of `/add`: `findIndex` locates the first entry with
the given id and its `qty` is incremented in place, otherwise
`{productId, qty}` is pushed at the end. -/
def pushOrInc (pid qty : ℚ) : List CartItem → List CartItem
  | [] => [⟨pid, qty⟩]
  | i :: rest =>
      if i.productId = pid then ⟨i.productId, i.qty + qty⟩ :: rest
      else i :: pushOrInc pid qty rest

/-- The validation pipeline and cart update of `router.post("/add")`,
with the source's five checks in order: `!productId || qty == null`,
`typeof !== "number"`, `qty <= 0`, `productId < 1 || productId > 9`,
and `newQty > stockMap[productId]` (which is false when the lookup is
`undefined`, as a comparison with `undefined` is false in JavaScript). -/
def addHandler (pidV qtyV : Option JsVal) (cart : List CartItem) : CartResult :=
  if ¬ truthyOpt pidV ∨ isNullish qtyV then .rej .missingFields
  else if ¬ isNum pidV ∨ ¬ isNum qtyV then .rej .wrongTypes
  else if numOf qtyV ≤ 0 then .rej .invalidQty
  else if numOf pidV < 1 ∨ 9 < numOf pidV then .rej .unknownProduct
  else
    match stockMap (numOf pidV) with
    | some s =>
        if s < currentQty cart (numOf pidV) + numOf qtyV then .rej (.insufficientStock s)
        else .ok (pushOrInc (numOf pidV) (numOf qtyV) cart)
    | none => .ok (pushOrInc (numOf pidV) (numOf qtyV) cart)

/-- The validation and filter of `router.post("/remove")`: `!productId`,
then `typeof !== "number"`, then keep the entries with a different id. -/
def removeHandler (pidV : Option JsVal) (cart : List CartItem) : CartResult :=
  if ¬ truthyOpt pidV then .rej .removeMissing
  else if ¬ isNum pidV then .rej .removeWrongType
  else .ok (cart.filter fun i => decide (¬ i.productId = numOf pidV))

/-- The body of `router.post("/clear")`: the cart becomes empty. -/
def clearHandler : List CartItem → List CartItem := fun _ => []

/-- The persisted file as parsed JSON: a mapping from userId to cart,
in key-insertion order. -/
abbrev Store := List (String × List CartItem)

/-- The helper `saveCartToFile`: read the blob, set `allCarts[userId] = cart`
(replacing the existing key in place or appending a new one), write it back. -/
def saveCart (store : Store) (uid : String) (cart : List CartItem) : Store :=
  if store.any fun p => decide (p.1 = uid) then
    store.map fun p => if p.1 = uid then (uid, cart) else p
  else store ++ [(uid, cart)]

/-- Key lookup `allCarts[userId]` on the parsed blob. -/
def lookupCart (store : Store) (uid : String) : Option (List CartItem) :=
  (store.find? fun p => decide (p.1 = uid)).map Prod.snd

/-- The helper `loadCartFromFile`: `allCarts[userId] || []` (a stored
array is always truthy, so the fallback fires only on a missing key). -/
def loadCart (store : Store) (uid : String) : List CartItem :=
  (lookupCart store uid).getD []

/-- Server state relevant to one session: the session's cart slot
(`none` = `sess.cart` not yet set) and the persisted file contents. -/
structure St where
  sessCart : Option (List CartItem)
  store : Store
deriving DecidableEq

/-- The full effect of `router.post("/add")` on the state: validation
rejections before `sess.cart = sess.cart || []` leave the state alone;
the stock rejection happens after that normalization; on success the
new cart is stored in the session and persisted via `saveCartToFile`. -/
def addOp (uid : String) (pidV qtyV : Option JsVal) (st : St) : St × CartResult :=
  match addHandler pidV qtyV (st.sessCart.getD []) with
  | .rej (.insufficientStock a) =>
      ({ st with sessCart := some (st.sessCart.getD []) }, .rej (.insufficientStock a))
  | .rej e => (st, .rej e)
  | .ok c => ({ sessCart := some c, store := saveCart st.store uid c }, .ok c)

/-- The effect of `router.get("/")`: hydrate `sess.cart` from the file
when it is unset (an empty array is truthy and is not reloaded), then
answer with the session cart. -/
def getOp (uid : String) (st : St) : St × List CartItem :=
  match st.sessCart with
  | some c => (st, c)
  | none =>
      let c := loadCart st.store uid
      ({ st with sessCart := some c }, c)

/-- The computation of `router.get("/total")`: a fold accumulating
`prices[item.productId] || 0` times `item.qty`, and
`cart.reduce((acc, i) => acc + i.qty, 0)`. -/
def totalHandler (cart : List CartItem) : ℚ × ℚ :=
  (cart.foldl (fun t i => t + priceMap i.productId * i.qty) 0,
   cart.foldl (fun a i => a + i.qty) 0)

/-- The `/total` route reads `sess.cart || []` and never writes it. -/
def totalOp (st : St) : St × (ℚ × ℚ) :=
  (st, totalHandler (st.sessCart.getD []))

/-- One character of JavaScript `toLowerCase()`, exact on the Basic
Latin and Latin-1 Supplement blocks (U+0000 to U+00FF, the repertoire of
this Spanish catalog and of its queries): the uppercase letters `A`-`Z`
and `À`-`Þ` (the multiplication sign `×` is not a letter) shift down by
32, and every other character of these blocks is a fixed point of
`toLowerCase`.  Characters beyond U+00FF are left unchanged by the
model. -/
def jsLowerChar (c : Char) : Char :=
  if ('A' ≤ c ∧ c ≤ 'Z') ∨ ('À' ≤ c ∧ c ≤ 'Þ' ∧ ¬ c = '×') then Char.ofNat (c.toNat + 32)
  else c

/-- Lower-case a string character by character, as `toLowerCase()` does. -/
def lowerChars (s : String) : List Char := s.data.map jsLowerChar

/-- Test whether the second list starts with the first one. -/
def leadMatch : List Char → List Char → Bool
  | [], _ => true
  | _ :: _, [] => false
  | p :: ps, c :: cs => p == c && leadMatch ps cs

/-- JavaScript `String.prototype.includes`: scan for the pattern at
every position. -/
def hasSub (pat : List Char) : List Char → Bool
  | [] => leadMatch pat []
  | c :: cs => leadMatch pat (c :: cs) || hasSub pat cs

/-- The filter of `router.get("/search/:query")`: lower-case the query
once and keep the products whose lower-cased name or description
contains it. -/
def searchHandler (query : String) : List Product :=
  let q := lowerChars query
  products.filter fun p => hasSub q (lowerChars p.name) || hasSub q (lowerChars p.description)

/-- Catalog price lookup as the spec phrases it: the price of the
product with this id, an unknown id contributing 0. -/
def catalogPrice (pid : ℚ) : ℚ :=
  ((products.find? fun p => decide (p.id = pid)).map Product.price).getD 0

/-- Catalog stock of the product with this id (0 when absent). -/
def stockOf (pid : ℚ) : ℚ :=
  ((products.find? fun p => decide (p.id = pid)).map Product.stock).getD 0

/-- The data-model invariant on carts: at most one entry per productId. -/
def UniqueCart (cart : List CartItem) : Prop :=
  (cart.map CartItem.productId).Nodup

/-- Carts reachable from the empty cart by the mutating endpoints, with
arbitrary (even malformed) request bodies. -/
inductive Reachable : List CartItem → Prop where
  | nil : Reachable []
  | add : ∀ {c c' : List CartItem} {p q : Option JsVal},
      Reachable c → addHandler p q c = .ok c' → Reachable c'
  | rem : ∀ {c c' : List CartItem} {p : Option JsVal},
      Reachable c → removeHandler p c = .ok c' → Reachable c'
  | clr : ∀ {c : List CartItem}, Reachable c → Reachable (clearHandler c)

/-- Contiguous-substring containment, the mathematical reading of
"contains the term as a substring". -/
def SubstringOf (pat s : List Char) : Prop :=
  ∃ l r, s = l ++ pat ++ r

/-! Helper lemmas about the update step of the add handler. -/

lemma pushOrInc_of_not_mem {pid : ℚ} (q : ℚ) :
    ∀ {cart : List CartItem}, pid ∉ cart.map CartItem.productId →
      pushOrInc pid q cart = cart ++ [⟨pid, q⟩] := by
  intro cart
  induction cart with
  | nil => intro _; rfl
  | cons i rest ih =>
      intro h
      rw [List.map_cons, List.mem_cons] at h
      push_neg at h
      rw [pushOrInc, if_neg (fun e => h.1 e.symm), ih h.2, List.cons_append]

lemma map_pushOrInc (pid q : ℚ) (cart : List CartItem) :
    (pushOrInc pid q cart).map CartItem.productId
      = if pid ∈ cart.map CartItem.productId then cart.map CartItem.productId
        else cart.map CartItem.productId ++ [pid] := by
  induction cart with
  | nil => simp [pushOrInc]
  | cons i rest ih =>
      by_cases hip : i.productId = pid
      · rw [pushOrInc, if_pos hip]
        simp [hip]
      · by_cases hm : pid ∈ rest.map CartItem.productId
        · rw [pushOrInc, if_neg hip, List.map_cons, ih, if_pos hm, List.map_cons,
            if_pos (List.mem_cons_of_mem _ hm)]
        · have hnc : pid ∉ i.productId :: rest.map CartItem.productId := by
            rw [List.mem_cons]
            rintro (h | h)
            exacts [hip h.symm, hm h]
          rw [pushOrInc, if_neg hip, List.map_cons, ih, if_neg hm, List.map_cons, if_neg hnc,
            List.cons_append]

lemma nodup_pushOrInc {pid q : ℚ} {cart : List CartItem} (h : UniqueCart cart) :
    UniqueCart (pushOrInc pid q cart) := by
  unfold UniqueCart at h ⊢
  rw [map_pushOrInc]
  split_ifs with hm
  · exact h
  · exact h.append (List.nodup_singleton pid)
      (fun x hx hx' => by rw [List.mem_singleton] at hx'; exact hm (hx' ▸ hx))

lemma filter_eq_pushOrInc {pid : ℚ} (q : ℚ) :
    ∀ {cart : List CartItem}, UniqueCart cart →
      (pushOrInc pid q cart).filter (fun i => decide (i.productId = pid))
        = [⟨pid, currentQty cart pid + q⟩] := by
  intro cart
  induction cart with
  | nil => intro _; simp [pushOrInc, currentQty]
  | cons i rest ih =>
      intro hu
      rw [UniqueCart, List.map_cons, List.nodup_cons] at hu
      by_cases hip : i.productId = pid
      · rw [pushOrInc, if_pos hip]
        have hrest : rest.filter (fun i => decide (i.productId = pid)) = [] := by
          rw [List.filter_eq_nil_iff]
          intro j hj
          simp only [decide_eq_true_eq]
          intro he
          have hmem : j.productId ∈ rest.map CartItem.productId :=
            List.mem_map_of_mem CartItem.productId hj
          rw [he, ← hip] at hmem
          exact hu.1 hmem
        rw [currentQty, List.find?_cons_of_pos _ (by simp [hip])]
        simp [hip, hrest]
      · rw [pushOrInc, if_neg hip]
        rw [currentQty, List.find?_cons_of_neg _ (by simp [hip])]
        rw [List.filter_cons_of_neg (by simp [hip])]
        exact ih hu.2

lemma filter_ne_pushOrInc (pid q : ℚ) (cart : List CartItem) :
    (pushOrInc pid q cart).filter (fun i => decide (¬ i.productId = pid))
      = cart.filter (fun i => decide (¬ i.productId = pid)) := by
  induction cart with
  | nil => simp [pushOrInc]
  | cons i rest ih =>
      by_cases hip : i.productId = pid
      · rw [pushOrInc, if_pos hip]
        rw [List.filter_cons_of_neg (by simp [hip]), List.filter_cons_of_neg (by simp [hip])]
      · rw [pushOrInc, if_neg hip]
        rw [List.filter_cons_of_pos (by simp [hip]), List.filter_cons_of_pos (by simp [hip]), ih]

/-! Inversion lemmas: what a successful mutation returned. -/

lemma addHandler_ok_inv {p q : Option JsVal} {cart c' : List CartItem}
    (h : addHandler p q cart = .ok c') :
    c' = pushOrInc (numOf p) (numOf q) cart := by
  unfold addHandler at h
  repeat' split at h
  all_goals first
    | exact CartResult.noConfusion h
    | (injection h with h; exact h.symm)

lemma removeHandler_ok_inv {p : Option JsVal} {cart c' : List CartItem}
    (h : removeHandler p cart = .ok c') :
    c' = cart.filter (fun i => decide (¬ i.productId = numOf p)) := by
  unfold removeHandler at h
  repeat' split at h
  all_goals first
    | exact CartResult.noConfusion h
    | (injection h with h; exact h.symm)

/-- C5: every cart reachable from the empty cart by any sequence of add,
remove and clear operations (with arbitrary request bodies) contains at
most one item per productId. -/
theorem claim5_unique_invariant (c : List CartItem) (h : Reachable c) : UniqueCart c := by
  induction h with
  | nil => exact List.nodup_nil
  | add _ hok ih =>
      rw [addHandler_ok_inv hok]
      exact nodup_pushOrInc ih
  | rem _ hok ih =>
      rw [removeHandler_ok_inv hok]
      exact ((List.filter_sublist _).map CartItem.productId).nodup ih
  | clr _ _ => exact List.nodup_nil

/-- Witness for C5 at a concrete reachable cart. -/
theorem claim5_witness : UniqueCart [⟨1, 2⟩] :=
  claim5_unique_invariant [⟨1, 2⟩]
    (Reachable.add (p := some (.vNum 1)) (q := some (.vNum 2)) Reachable.nil
      (by norm_num [addHandler, truthyOpt, isNullish, isNum, numOf, currentQty, stockMap,
        pushOrInc]))

/-- C3 counterexample: the first validation rule does not behave as
"present integer" filtering.  A non-integer quantity 1.5 sails through
the whole pipeline and is added to the cart (the code only checks
`typeof === "number"`), and a present integer productId 0 is rejected
as missing (JavaScript `!0` is true). -/
theorem claim3_counterexample :
    addHandler (some (.vNum 1)) (some (.vNum (3 / 2))) [] = .ok [⟨1, 3 / 2⟩]
    ∧ addHandler (some (.vNum 0)) (some (.vNum 1)) [] = .rej .missingFields := by
  constructor
  · norm_num [addHandler, truthyOpt, isNullish, isNum, numOf, currentQty, stockMap, pushOrInc]
  · norm_num [addHandler, truthyOpt, isNullish]

/-- C3 amended: the add operation rejects with the missing-data message
exactly when productId is falsy (absent, null, 0, empty string or false)
or qty is null/absent, and with the wrong-type message exactly when both
survive that check but one of them is not a JavaScript number; when
productId is truthy and qty is a non-null number (integer or not),
neither of these two rejections can occur. -/
theorem claim3_amended (p q : Option JsVal) (cart : List CartItem) :
    ((truthyOpt p = false ∨ isNullish q = true) → addHandler p q cart = .rej .missingFields)
    ∧ (truthyOpt p = true → isNullish q = false → (isNum p = false ∨ isNum q = false) →
        addHandler p q cart = .rej .wrongTypes)
    ∧ (truthyOpt p = true → isNullish q = false → isNum p = true → isNum q = true →
        addHandler p q cart ≠ .rej .missingFields ∧ addHandler p q cart ≠ .rej .wrongTypes) := by
  refine ⟨?_, ?_, ?_⟩
  · intro h
    have hc : (¬ truthyOpt p ∨ isNullish q) := by
      rcases h with h | h
      · exact Or.inl (by simp [h])
      · exact Or.inr h
    unfold addHandler
    rw [if_pos hc]
  · intro h1 h2 h3
    have hc1 : ¬ (¬ truthyOpt p ∨ isNullish q) := by simp [h1, h2]
    have hc2 : (¬ isNum p ∨ ¬ isNum q) := by
      rcases h3 with h | h
      · exact Or.inl (by simp [h])
      · exact Or.inr (by simp [h])
    unfold addHandler
    rw [if_neg hc1, if_pos hc2]
  · intro h1 h2 h3 h4
    have hc1 : ¬ (¬ truthyOpt p ∨ isNullish q) := by simp [h1, h2]
    have hc2 : ¬ (¬ isNum p ∨ ¬ isNum q) := by simp [h3, h4]
    unfold addHandler
    rw [if_neg hc1, if_neg hc2]
    constructor
    · intro hbad
      repeat' split at hbad
      all_goals simp at hbad
    · intro hbad
      repeat' split at hbad
      all_goals simp at hbad

/-- Witness for C3 amended at a concrete missing field. -/
theorem claim3_witness : addHandler none (some (.vNum 1)) [] = .rej .missingFields :=
  (claim3_amended none (some (.vNum 1)) []).1 (Or.inl rfl)

/-- C4 counterexample: with 5 units of product 1 already in the cart and
10 more requested, the rejection reports available = 12 (the full
stock), while stock minus the quantity already in the cart is 7. -/
theorem claim4_counterexample :
    addHandler (some (.vNum 1)) (some (.vNum 10)) [⟨1, 5⟩] = .rej (.insufficientStock 12)
    ∧ stockOf 1 - currentQty [⟨1, 5⟩] 1 = 7
    ∧ (12 : ℚ) ≠ 7 := by
  refine ⟨?_, ?_, by norm_num⟩
  · norm_num [addHandler, truthyOpt, isNullish, isNum, numOf, currentQty, stockMap, List.find?]
  · norm_num [stockOf, currentQty, products, List.find?]

/-- C4 amended: every InsufficientStock rejection of add reports as
available the full `stockMap` stock of the requested product, not the
stock minus the quantity already in the cart. -/
theorem claim4_amended (p q : Option JsVal) (cart : List CartItem) (a : ℚ)
    (h : addHandler p q cart = .rej (.insufficientStock a)) :
    stockMap (numOf p) = some a := by
  unfold addHandler at h
  split_ifs at h
  all_goals try simp at h
  rcases hsm : stockMap (numOf p) with _ | s
  all_goals rw [hsm] at h
  all_goals dsimp only at h
  · simp at h
  · split_ifs at h
    all_goals simp_all

/-- Witness for C4 amended: the reported availability at the concrete
counterexample input is the stockMap entry of product 1. -/
theorem claim4_witness : stockMap (numOf (some (.vNum 1))) = some 12 :=
  claim4_amended (some (.vNum 1)) (some (.vNum 10)) [⟨1, 5⟩] 12
    (by norm_num [addHandler, truthyOpt, isNullish, isNum, numOf, currentQty, stockMap,
      List.find?])

/-- C7 counterexample: productId 0 is a present integer, yet remove
rejects it as missing (JavaScript `!0` is true), contradicting the
claim that every present integer productId succeeds. -/
theorem claim7_counterexample :
    removeHandler (some (.vNum 0)) [] = .rej .removeMissing := by
  norm_num [removeHandler, truthyOpt]

/-- C7 amended: remove succeeds for every present truthy (non-zero)
number productId, returning the cart with all matching items removed
and acting as a no-op success when nothing matches; it rejects as
missing when productId is falsy and as wrong-typed when it is truthy
but not a number. -/
theorem claim7_amended (p : Option JsVal) (cart : List CartItem) :
    (truthyOpt p = true → isNum p = true →
      removeHandler p cart = .ok (cart.filter fun i => decide (¬ i.productId = numOf p)))
    ∧ ((numOf p) ∉ cart.map CartItem.productId →
        (cart.filter fun i => decide (¬ i.productId = numOf p)) = cart)
    ∧ (truthyOpt p = false → removeHandler p cart = .rej .removeMissing)
    ∧ (truthyOpt p = true → isNum p = false → removeHandler p cart = .rej .removeWrongType) := by
  refine ⟨?_, ?_, ?_, ?_⟩
  · intro h1 h2
    unfold removeHandler
    rw [if_neg (by simp [h1]), if_neg (by simp [h2])]
  · intro hm
    rw [List.filter_eq_self]
    intro i hi
    simp only [decide_eq_true_eq]
    intro he
    exact hm (he ▸ List.mem_map_of_mem CartItem.productId hi)
  · intro h1
    unfold removeHandler
    rw [if_pos (by simp [h1])]
  · intro h1 h2
    unfold removeHandler
    rw [if_neg (by simp [h1]), if_pos (by simp [h2])]

/-- Witness for C7 amended: removing an id that is not in the cart is a
no-op success. -/
theorem claim7_witness : removeHandler (some (.vNum 5)) [⟨1, 2⟩] = .ok [⟨1, 2⟩] := by
  have h := (claim7_amended (some (.vNum 5)) [⟨1, 2⟩]).1 (by decide) rfl
  rw [h]
  norm_num [numOf]

/-- Facts holding for each of the nine catalog ids: such an id is
truthy, within the 1..9 range check, and its `stockMap` entry is the
catalog stock of the product. -/
lemma mem_ids_facts : ∀ pid ∈ products.map Product.id,
    truthyOpt (some (.vNum pid)) = true
    ∧ ¬ (pid < 1 ∨ 9 < pid)
    ∧ stockMap pid = some (stockOf pid) := by decide

/-- The add handler reaches its success branch whenever the request is a
catalog id with a positive quantity fitting in the remaining stock. -/
lemma addHandler_ok_of_valid {cart : List CartItem} {pid : ℚ} {n : ℕ}
    (hpid : pid ∈ products.map Product.id) (hn : 0 < n)
    (hstock : currentQty cart pid + (n : ℚ) ≤ stockOf pid) :
    addHandler (some (.vNum pid)) (some (.vNum (n : ℚ))) cart
      = .ok (pushOrInc pid (n : ℚ) cart) := by
  obtain ⟨ht, hrange, hsm⟩ := mem_ids_facts pid hpid
  have c1 : ¬ (¬ truthyOpt (some (.vNum pid)) ∨ isNullish (some (.vNum (n : ℚ)))) := by
    simp [ht, isNullish]
  have c2 : ¬ (¬ isNum (some (.vNum pid)) ∨ ¬ isNum (some (.vNum (n : ℚ)))) := by
    simp [isNum]
  have c3 : ¬ ((n : ℚ) ≤ 0) := not_le.mpr (by exact_mod_cast hn)
  unfold addHandler
  simp only [numOf]
  rw [if_neg c1, if_neg c2, if_neg c3, if_neg hrange, hsm]
  dsimp only
  rw [if_neg (not_lt.mpr hstock)]

/-- C1: for every cart satisfying the data-model uniqueness invariant,
every productId in the catalog and every positive integer qty with
current quantity plus qty within the product's stock, add succeeds; the
returned cart has exactly one item for that productId carrying the
prior quantity plus qty, the other items are untouched, an existing
item keeps its position in the sequence, and a new item is appended at
the end. -/
theorem claim1_add_success (cart : List CartItem) (pid : ℚ) (n : ℕ)
    (hu : UniqueCart cart)
    (hpid : pid ∈ products.map Product.id)
    (hn : 0 < n)
    (hstock : currentQty cart pid + (n : ℚ) ≤ stockOf pid) :
    ∃ cart',
      addHandler (some (.vNum pid)) (some (.vNum (n : ℚ))) cart = .ok cart'
      ∧ cart'.filter (fun i => decide (i.productId = pid))
          = [⟨pid, currentQty cart pid + (n : ℚ)⟩]
      ∧ cart'.filter (fun i => decide (¬ i.productId = pid))
          = cart.filter (fun i => decide (¬ i.productId = pid))
      ∧ (pid ∈ cart.map CartItem.productId →
          cart'.map CartItem.productId = cart.map CartItem.productId)
      ∧ (pid ∉ cart.map CartItem.productId → cart' = cart ++ [⟨pid, (n : ℚ)⟩]) := by
  refine ⟨pushOrInc pid (n : ℚ) cart, addHandler_ok_of_valid hpid hn hstock, ?_, ?_, ?_, ?_⟩
  · exact filter_eq_pushOrInc (n : ℚ) hu
  · exact filter_ne_pushOrInc pid (n : ℚ) cart
  · intro hm
    rw [map_pushOrInc, if_pos hm]
  · intro hm
    exact pushOrInc_of_not_mem (n : ℚ) hm

/-- Witness for C1: adding 2 units of product 1 to a cart already
holding 5 of them. -/
theorem claim1_witness :
    ∃ cart',
      addHandler (some (.vNum 1)) (some (.vNum ((2 : ℕ) : ℚ))) [⟨1, 5⟩] = .ok cart'
      ∧ cart'.filter (fun i => decide (i.productId = 1))
          = [⟨1, currentQty [⟨1, 5⟩] 1 + ((2 : ℕ) : ℚ)⟩]
      ∧ cart'.filter (fun i => decide (¬ i.productId = 1))
          = [⟨1, 5⟩].filter (fun i => decide (¬ i.productId = 1))
      ∧ ((1 : ℚ) ∈ [CartItem.mk 1 5].map CartItem.productId →
          cart'.map CartItem.productId = [CartItem.mk 1 5].map CartItem.productId)
      ∧ ((1 : ℚ) ∉ [CartItem.mk 1 5].map CartItem.productId →
          cart' = [⟨1, 5⟩] ++ [⟨1, ((2 : ℕ) : ℚ)⟩]) :=
  claim1_add_success [⟨1, 5⟩] 1 2 (by simp [UniqueCart]) (by decide) (by decide)
    (by norm_num [currentQty, stockOf, products, List.find?])

/-- C2: when the current quantity in the cart plus the requested
quantity exceeds the product's stock, add rejects with
InsufficientStock, the (normalized) session cart holds exactly the same
items as before, and nothing is written to the persisted store. -/
theorem claim2_insufficient_stock (st : St) (uid : String) (pid : ℚ) (n : ℕ)
    (hpid : pid ∈ products.map Product.id) (hn : 0 < n)
    (hover : stockOf pid < currentQty (st.sessCart.getD []) pid + (n : ℚ)) :
    ∃ st' a,
      addOp uid (some (.vNum pid)) (some (.vNum (n : ℚ))) st = (st', .rej (.insufficientStock a))
      ∧ st'.sessCart.getD [] = st.sessCart.getD []
      ∧ st'.store = st.store := by
  obtain ⟨ht, hrange, hsm⟩ := mem_ids_facts pid hpid
  have c1 : ¬ (¬ truthyOpt (some (.vNum pid)) ∨ isNullish (some (.vNum (n : ℚ)))) := by
    simp [ht, isNullish]
  have c2 : ¬ (¬ isNum (some (.vNum pid)) ∨ ¬ isNum (some (.vNum (n : ℚ)))) := by
    simp [isNum]
  have c3 : ¬ ((n : ℚ) ≤ 0) := not_le.mpr (by exact_mod_cast hn)
  have hrej : addHandler (some (.vNum pid)) (some (.vNum (n : ℚ))) (st.sessCart.getD [])
      = .rej (.insufficientStock (stockOf pid)) := by
    unfold addHandler
    simp only [numOf]
    rw [if_neg c1, if_neg c2, if_neg c3, if_neg hrange, hsm]
    dsimp only
    rw [if_pos hover]
  refine ⟨{ st with sessCart := some (st.sessCart.getD []) }, stockOf pid, ?_, by simp, rfl⟩
  unfold addOp
  rw [hrej]

/-- Witness for C2: product 1 has stock 12 and the cart already holds
all 12, so one more unit is rejected without touching cart or store. -/
theorem claim2_witness :
    ∃ st' a,
      addOp "u1" (some (.vNum 1)) (some (.vNum ((1 : ℕ) : ℚ))) ⟨some [⟨1, 12⟩], []⟩
        = (st', .rej (.insufficientStock a))
      ∧ st'.sessCart.getD [] = (St.mk (some [⟨1, 12⟩]) []).sessCart.getD []
      ∧ st'.store = (St.mk (some [⟨1, 12⟩]) []).store :=
  claim2_insufficient_stock ⟨some [⟨1, 12⟩], []⟩ "u1" 1 1 (by decide) (by decide)
    (by norm_num [currentQty, stockOf, products, List.find?])

/-- A left fold adding `f` of each element equals the starting value
plus the sum of the mapped list. -/
lemma foldl_add_map (f : CartItem → ℚ) :
    ∀ (l : List CartItem) (c : ℚ), l.foldl (fun t i => t + f i) c = c + (l.map f).sum := by
  intro l
  induction l with
  | nil => intro c; simp
  | cons i rest ih =>
      intro c
      rw [List.foldl_cons, ih, List.map_cons, List.sum_cons, add_assoc]

/-- The hard-coded `prices` record of the `/total` handler agrees with
the catalog price at every key (and both give 0 off the catalog). -/
lemma priceMap_eq_catalogPrice (q : ℚ) : priceMap q = catalogPrice q := by
  by_cases h1 : q = 1
  · subst h1; decide
  by_cases h2 : q = 2
  · subst h2; decide
  by_cases h3 : q = 3
  · subst h3; decide
  by_cases h4 : q = 4
  · subst h4; decide
  by_cases h5 : q = 5
  · subst h5; decide
  by_cases h6 : q = 6
  · subst h6; decide
  by_cases h7 : q = 7
  · subst h7; decide
  by_cases h8 : q = 8
  · subst h8; decide
  by_cases h9 : q = 9
  · subst h9; decide
  have hnone : products.find? (fun p => decide (p.id = q)) = none := by
    rw [List.find?_eq_none]
    intro x hx
    simp only [products, List.mem_cons, List.not_mem_nil, or_false] at hx
    rcases hx with rfl | rfl | rfl | rfl | rfl | rfl | rfl | rfl | rfl
    all_goals simp only [decide_eq_true_eq]
    exacts [fun e => h1 e.symm, fun e => h2 e.symm, fun e => h3 e.symm, fun e => h4 e.symm,
      fun e => h5 e.symm, fun e => h6 e.symm, fun e => h7 e.symm, fun e => h8 e.symm,
      fun e => h9 e.symm]
  unfold priceMap catalogPrice
  rw [hnone, if_neg h1, if_neg h2, if_neg h3, if_neg h4, if_neg h5, if_neg h6, if_neg h7,
    if_neg h8, if_neg h9]
  rfl

/-- C6: total is the sum over items of the catalog price of the item's
productId times its qty (an unknown productId contributing 0),
itemCount is the sum of quantities, the empty cart totals (0, 0), the
two-item example totals 549997, and the operation leaves the state
untouched. -/
theorem claim6_total :
    (∀ cart : List CartItem,
        (totalHandler cart).1 = (cart.map fun i => catalogPrice i.productId * i.qty).sum
        ∧ (totalHandler cart).2 = (cart.map CartItem.qty).sum)
    ∧ totalHandler [] = (0, 0)
    ∧ (totalHandler [⟨1, 2⟩, ⟨2, 1⟩]).1 = 549997
    ∧ (∀ st : St, (totalOp st).1 = st) := by
  refine ⟨?_, by norm_num [totalHandler], ?_, fun _ => rfl⟩
  · intro cart
    constructor
    · rw [totalHandler]
      rw [foldl_add_map (fun i => priceMap i.productId * i.qty) cart 0, zero_add]
      simp [priceMap_eq_catalogPrice]
    · rw [totalHandler]
      rw [foldl_add_map CartItem.qty cart 0, zero_add]
  · norm_num [totalHandler, priceMap]

/-- Updating the matching keys in place writes the new cart under `uid`
whenever some entry with that key exists. -/
lemma lookup_map_update (uid : String) (cart : List CartItem) :
    ∀ store : Store, store.any (fun p => decide (p.1 = uid)) = true →
      lookupCart (store.map fun p => if p.1 = uid then (uid, cart) else p) uid = some cart := by
  intro store
  induction store with
  | nil => intro h; simp at h
  | cons hd tl ih =>
      intro hany
      by_cases hk : hd.1 = uid
      · rw [List.map_cons, if_pos hk, lookupCart,
          List.find?_cons_of_pos _ (by simp)]
        rfl
      · rw [List.map_cons, if_neg hk, lookupCart,
          List.find?_cons_of_neg _ (by simp [hk])]
        rw [List.any_cons] at hany
        simp only [hk, decide_eq_true_eq, Bool.or_eq_true, false_or] at hany
        exact ih hany

/-- Updating the entries for `uid` leaves lookups of any other key
untouched. -/
lemma lookup_map_other (uid : String) (cart : List CartItem) (k : String) (hk : ¬ k = uid) :
    ∀ store : Store,
      lookupCart (store.map fun p => if p.1 = uid then (uid, cart) else p) k
        = lookupCart store k := by
  intro store
  induction store with
  | nil => rfl
  | cons hd tl ih =>
      by_cases hh : hd.1 = uid
      · rw [List.map_cons, if_pos hh, lookupCart,
          List.find?_cons_of_neg _ (by simp only [decide_eq_true_eq]; exact fun e => hk e.symm),
          lookupCart,
          List.find?_cons_of_neg _ (by simp only [decide_eq_true_eq, hh]; exact fun e => hk e.symm)]
        exact ih
      · by_cases hhk : hd.1 = k
        · rw [List.map_cons, if_neg hh, lookupCart, List.find?_cons_of_pos _ (by simp [hhk]),
            lookupCart, List.find?_cons_of_pos _ (by simp [hhk])]
        · rw [List.map_cons, if_neg hh, lookupCart, List.find?_cons_of_neg _ (by simp [hhk]),
            lookupCart, List.find?_cons_of_neg _ (by simp [hhk])]
          exact ih

/-- Saving a cart makes it the value found under its own key. -/
lemma lookupCart_saveCart_self (store : Store) (uid : String) (cart : List CartItem) :
    lookupCart (saveCart store uid cart) uid = some cart := by
  unfold saveCart
  split_ifs with hany
  · exact lookup_map_update uid cart store hany
  · have hnone : store.find? (fun p => decide (p.1 = uid)) = none := by
      rw [List.find?_eq_none]
      intro x hx hpx
      apply hany
      rw [List.any_eq_true]
      exact ⟨x, hx, hpx⟩
    rw [lookupCart, List.find?_append, hnone, Option.none_or,
      List.find?_cons_of_pos _ (by simp)]
    rfl

/-- Inversion of a successful add at the state level: the new state
holds the returned cart in the session and persists it. -/
lemma addOp_ok_inv {uid : String} {p q : Option JsVal} {st st' : St} {c' : List CartItem}
    (h : addOp uid p q st = (st', .ok c')) :
    st' = ⟨some c', saveCart st.store uid c'⟩ := by
  unfold addOp at h
  rcases hh : addHandler p q (st.sessCart.getD []) with e | c
  all_goals rw [hh] at h
  · rcases e with _ | _ | _ | _ | a | _ | _
    all_goals dsimp only at h
    all_goals injection h with h1 h2
    all_goals exact CartResult.noConfusion h2
  · dsimp only at h
    injection h with h1 h2
    injection h2 with h3
    rw [← h1, h3]

/-- C8: persisting a cart and loading it back under the same userId
returns the same cart; after a successful add, a get in the same
session answers with the new cart, and a get in a fresh session (no
`sess.cart` yet) with the same userId reloads exactly the persisted
cart. -/
theorem claim8_roundtrip :
    (∀ (store : Store) (uid : String) (cart : List CartItem),
        loadCart (saveCart store uid cart) uid = cart)
    ∧ (∀ (uid : String) (p q : Option JsVal) (st st' : St) (c' : List CartItem),
        addOp uid p q st = (st', .ok c') → getOp uid st' = (st', c'))
    ∧ (∀ (uid : String) (p q : Option JsVal) (st st' : St) (c' : List CartItem),
        addOp uid p q st = (st', .ok c') → (getOp uid ⟨none, st'.store⟩).2 = c') := by
  refine ⟨?_, ?_, ?_⟩
  · intro store uid cart
    rw [loadCart, lookupCart_saveCart_self]
    rfl
  · intro uid p q st st' c' h
    rw [addOp_ok_inv h]
    rfl
  · intro uid p q st st' c' h
    rw [addOp_ok_inv h]
    dsimp only [getOp]
    rw [loadCart, lookupCart_saveCart_self]
    rfl

/-- Witness for C8: a concrete add followed by a fresh-session get
reproduces the added cart. -/
theorem claim8_witness :
    (getOp "u1" ⟨none, (St.mk (some [⟨1, 2⟩]) [("u1", [⟨1, 2⟩])]).store⟩).2 = [⟨1, 2⟩] :=
  claim8_roundtrip.2.2 "u1" (some (.vNum 1)) (some (.vNum 2)) ⟨none, []⟩
    ⟨some [⟨1, 2⟩], [("u1", [⟨1, 2⟩])]⟩ [⟨1, 2⟩]
    (by norm_num [addOp, addHandler, truthyOpt, isNullish, isNum, numOf, currentQty,
      stockMap, pushOrInc, saveCart])

/-- C10: saving one user's cart rewrites only that user's entry of the
persisted mapping; every other key's lookup is unchanged. -/
theorem claim10_frame (store : Store) (uid : String) (cart : List CartItem)
    (k : String) (hk : ¬ k = uid) :
    lookupCart (saveCart store uid cart) k = lookupCart store k := by
  unfold saveCart
  split_ifs with hany
  · exact lookup_map_other uid cart k hk store
  · rw [lookupCart, List.find?_append, lookupCart]
    have hnil : List.find? (fun p => decide (p.1 = k)) [(uid, cart)] = none := by
      rw [List.find?_cons_of_neg _ (by simp only [decide_eq_true_eq]; exact fun e => hk e.symm),
        List.find?_nil]
    rw [hnil, Option.or_none]

/-- Witness for C10: writing user b's cart leaves user a's entry alone. -/
theorem claim10_witness :
    lookupCart (saveCart [("a", [⟨1, 1⟩])] "b" [⟨2, 2⟩]) "a" = lookupCart [("a", [⟨1, 1⟩])] "a" :=
  claim10_frame [("a", [⟨1, 1⟩])] "b" [⟨2, 2⟩] "a" (by decide)

/-- Correctness of the starts-with scan. -/
lemma leadMatch_iff : ∀ (p s : List Char), leadMatch p s = true ↔ ∃ r, s = p ++ r := by
  intro p
  induction p with
  | nil =>
      intro s
      simp [leadMatch]
  | cons a as ih =>
      intro s
      cases s with
      | nil => simp [leadMatch]
      | cons b bs =>
          simp only [leadMatch, Bool.and_eq_true, beq_iff_eq, ih bs, List.cons_append,
            List.cons.injEq]
          constructor
          · rintro ⟨rfl, r, rfl⟩
            exact ⟨r, rfl, rfl⟩
          · rintro ⟨r, rfl, rfl⟩
            exact ⟨rfl, r, rfl⟩

/-- Correctness of the substring scan: it reports exactly contiguous
substring containment. -/
lemma hasSub_iff (pat : List Char) : ∀ s : List Char, hasSub pat s = true ↔ SubstringOf pat s := by
  intro s
  induction s with
  | nil =>
      rw [hasSub, SubstringOf, leadMatch_iff]
      constructor
      · rintro ⟨r, hr⟩
        exact ⟨[], r, by simp [← hr]⟩
      · rintro ⟨l, r, hlr⟩
        have h3 : l = [] ∧ pat = [] ∧ r = [] := by simpa using hlr.symm
        exact ⟨r, by simp [h3.2.1, h3.2.2]⟩
  | cons c cs ih =>
      rw [hasSub, Bool.or_eq_true, leadMatch_iff, ih, SubstringOf, SubstringOf]
      constructor
      · rintro (⟨r, hr⟩ | ⟨l, r, hr⟩)
        · exact ⟨[], r, by simpa using hr⟩
        · exact ⟨c :: l, r, by simp [hr]⟩
      · rintro ⟨l, r, hr⟩
        cases l with
        | nil => exact Or.inl ⟨r, by simpa using hr⟩
        | cons c2 l2 =>
            rw [List.cons_append, List.cons_append] at hr
            injection hr with h1 h2
            exact Or.inr ⟨l2, r, h2⟩

/-- The empty pattern is a substring of everything, matching the
JavaScript behavior of `includes("")`. -/
lemma hasSub_nil_pat : ∀ s : List Char, hasSub [] s = true := by
  intro s
  cases s with
  | nil => rfl
  | cons c cs => rw [hasSub, leadMatch, Bool.true_or]

/-- C9: for every search term over the Basic Latin and Latin-1 blocks
(the character range on which the embedding of `toLowerCase()` is
exact; it covers the whole catalog and its Spanish queries), search
returns exactly the catalog products whose lower-cased name or
description contains the lower-cased term as a contiguous substring;
the empty term matches the whole catalog, searching "runner" returns
exactly the product "Runner Azul", and the accented uppercase queries
"DISEÑO" and "MONTAÑA" match the products whose descriptions contain
"diseño" and "montaña". -/
theorem claim9_search :
    (∀ (query : String) (p : Product), (∀ c ∈ query.data, c.toNat < 256) →
        (p ∈ searchHandler query ↔
          p ∈ products ∧
            (SubstringOf (lowerChars query) (lowerChars p.name)
              ∨ SubstringOf (lowerChars query) (lowerChars p.description))))
    ∧ searchHandler "" = products
    ∧ searchHandler "runner"
        = [⟨1, "Runner Azul", 199999, "/img/shoe_1.png",
            "Zapatilla ligera para correr, malla transpirable.", 12⟩]
    ∧ searchHandler "DISEÑO"
        = [⟨7, "Pro Basketball Negro", 229999, "/img/shoe_7.png",
            "Diseño profesional con soporte de tobillo y amortiguación avanzada.", 15⟩,
           ⟨9, "Skate Amarillo", 169999, "/img/shoe_9.png",
            "Suela reforzada y diseño resistente.", 11⟩]
    ∧ searchHandler "MONTAÑA"
        = [⟨6, "Trail Gris", 209999, "/img/shoe_6.png",
            "Ideal para montaña y terrenos irregulares.", 7⟩] := by
  refine ⟨?_, ?_, ?_, ?_, ?_⟩
  · intro query p _
    simp only [searchHandler, List.mem_filter, Bool.or_eq_true, hasSub_iff]
  · simp only [searchHandler]
    rw [List.filter_eq_self]
    intro p _
    simp [show lowerChars "" = [] from rfl, hasSub_nil_pat]
  · have e : ∀ p ∈ products,
        (hasSub (lowerChars "runner") (lowerChars p.name)
          || hasSub (lowerChars "runner") (lowerChars p.description))
        = decide (p.id = 1) := by decide
    simp only [searchHandler]
    rw [List.filter_congr e]
    norm_num [products, List.filter]
  · have e : ∀ p ∈ products,
        (hasSub (lowerChars "DISEÑO") (lowerChars p.name)
          || hasSub (lowerChars "DISEÑO") (lowerChars p.description))
        = decide (p.id = 7 ∨ p.id = 9) := by decide
    simp only [searchHandler]
    rw [List.filter_congr e]
    norm_num [products, List.filter]
  · have e : ∀ p ∈ products,
        (hasSub (lowerChars "MONTAÑA") (lowerChars p.name)
          || hasSub (lowerChars "MONTAÑA") (lowerChars p.description))
        = decide (p.id = 6) := by decide
    simp only [searchHandler]
    rw [List.filter_congr e]
    norm_num [products, List.filter]

/-- Witness for C9 at the concrete mixed-case query "Runner" and the
product "Runner Azul". -/
theorem claim9_witness :
    (⟨1, "Runner Azul", 199999, "/img/shoe_1.png",
        "Zapatilla ligera para correr, malla transpirable.", 12⟩ : Product)
        ∈ searchHandler "Runner"
      ↔ (⟨1, "Runner Azul", 199999, "/img/shoe_1.png",
            "Zapatilla ligera para correr, malla transpirable.", 12⟩ : Product) ∈ products
        ∧ (SubstringOf (lowerChars "Runner") (lowerChars "Runner Azul")
            ∨ SubstringOf (lowerChars "Runner")
                (lowerChars "Zapatilla ligera para correr, malla transpirable.")) :=
  claim9_search.1 "Runner"
    ⟨1, "Runner Azul", 199999, "/img/shoe_1.png",
      "Zapatilla ligera para correr, malla transpirable.", 12⟩ (by decide)

end Zapateria
